import Mathlib

/-!
Shallow embedding of the Ising-model sweep driver (`main.py`) of the
repository `ising-starter-python`, together with the one engine primitive
the claims mention (`flipEnergyDelta`, whose source file `ising.py` is not
part of the repository snapshot and is therefore modelled from the spec).

Numeric CSV/plot cells are represented symbolically: a `CellVal` records
which numpy reduction (`np.average` / `np.std`) was applied to which window
of which series, so that claims about *which* data feeds *which* output can
be settled exactly, without modelling floating point.  Exceptions that the
Python `try`/`except` blocks may catch at one temperature are driven by an
oracle (`TempResult`), one outcome per loop iteration.
-/

/-- Symbolic value of one CSV / plot cell: a plain number (the temperature),
the result of `np.average` over a window, the result of `np.std` over a
window, or a header label string. -/
inductive CellVal where
  | num : ℚ → CellVal
  | avg : List ℚ → CellVal
  | std : List ℚ → CellVal
  | label : String → CellVal
deriving DecidableEq, Repr

/-- Python slice `xs[a:]` for an arbitrary (possibly negative) integer `a`:
a nonnegative start drops `a` elements, a negative start begins at
`max 0 (len + a)`. -/
def pySliceFrom (xs : List ℚ) (a : Int) : List ℚ :=
  if 0 ≤ a then xs.drop a.toNat else xs.drop (((xs.length : Int) + a).toNat)

/-- The tail window `xs[-num_analysis:]` used by `calculate_and_save_values`
and `get_plot_values` (main.py lines 15-18 and 99-102). -/
def analysisWindow (xs : List ℚ) (num_analysis : Int) : List ℚ :=
  pySliceFrom xs (-num_analysis)

/-- Symbolic `np.average` over a window. -/
def np_average (xs : List ℚ) : CellVal := CellVal.avg xs

/-- Symbolic `np.std` over a window. -/
def np_std (xs : List ℚ) : CellVal := CellVal.std xs

/-- The header row written for the first temperature (main.py line 20). -/
def header_array : List CellVal :=
  [CellVal.label "Temperature", CellVal.label "Magnetization Mean",
   CellVal.label "Magnetization Std Dev", CellVal.label "Energy Mean",
   CellVal.label "Energy Std Dev"]

/-- Embedding of `calculate_and_save_values` (main.py lines 12-28).
`statOk` is the exception oracle for the `try` block: the Python statistics
code may raise (any exception is caught at line 26, logged, and `False` is
returned, written `none` here).  On success the function appends the header
row when `index == 0` and then the single data row
`[temp, M_mean, M_std, E_mean, E_std]`, and returns the appended rows. -/
def calculate_and_save_values (statOk : Bool) (index : Nat) (temp : ℚ)
    (Msamp Esamp : List ℚ) (num_analysis : Int) :
    Option (List (List CellVal)) :=
  if statOk then
    let M_mean := np_average (analysisWindow Msamp num_analysis)
    let E_mean := np_average (analysisWindow Esamp num_analysis)
    let M_std := np_std (analysisWindow Msamp num_analysis)
    let E_std := np_std (analysisWindow Esamp num_analysis)
    let data_array := [CellVal.num temp, M_mean, M_std, E_mean, E_std]
    some ((if index = 0 then [header_array] else []) ++ [data_array])
  else none

/-- Embedding of `get_plot_values` (main.py lines 97-106): recomputes the
same four statistics and returns them in the order
`(M_mean, E_mean, M_std, E_std)`; `plotOk` is the exception oracle for its
`try` block (on an exception the Python function returns `False`, whose
unpacking at line 78 raises in the caller, written `none` here). -/
def get_plot_values (plotOk : Bool) (temp : ℚ) (Msamp Esamp : List ℚ)
    (num_analysis : Int) : Option (CellVal × CellVal × CellVal × CellVal) :=
  if plotOk then
    some (np_average (analysisWindow Msamp num_analysis),
          np_average (analysisWindow Esamp num_analysis),
          np_std (analysisWindow Msamp num_analysis),
          np_std (analysisWindow Esamp num_analysis))
  else none

/-- Embedding of `check_step_values` (main.py lines 119-126). -/
def check_step_values (num_steps num_analysis num_burnin : Int) :
    Except String Unit :=
  if num_burnin > num_steps then
    Except.error "num_burning cannot be greater than available num_steps. Exiting simulation."
  else if num_analysis > num_steps - num_burnin then
    Except.error "num_analysis cannot be greater than available num_steps after burnin. Exiting simulation."
  else Except.ok ()

/-- Exact-arithmetic model of `np.arange(start, stop, step)`: the list
`start + k * step` for `0 ≤ k < ⌈(stop - start) / step⌉`. -/
def np_arange (start stop step : ℚ) : List ℚ :=
  (List.range (Int.toNat ⌈(stop - start) / step⌉)).map
    (fun (k : Nat) => start + (k : ℚ) * step)

/-- Embedding of `get_temp_array` (main.py lines 151-160): rejects
`t_min > t_max`, rejects a zero step (numpy raises, caught and re-raised as
`ValueError` at line 159), otherwise returns the `np.arange` values. -/
def get_temp_array (t_min t_max t_step : ℚ) : Except String (List ℚ) :=
  if t_min > t_max then
    Except.error "T_min cannot be greater than T_max. Exiting Simulation"
  else if t_step = 0 then
    Except.error "Error creating temperature array. Exiting simulation."
  else Except.ok (np_arange t_min t_max t_step)

/-- The CLI parameters of `run_simulation` (main.py lines 31-48) that the
claims depend on. -/
structure Params where
  t_min : ℚ
  t_max : ℚ
  t_step : ℚ
  n : Int
  num_steps : Int
  num_analysis : Int
  num_burnin : Int
  j : ℚ
  b : ℚ
  flip_prop : ℚ
  plots : Bool
deriving DecidableEq, Repr

/-- One recorded invocation of the engine `run_ising`, with its arguments
in the positional order of the call at main.py line 72:
`run_ising(n, temp, num_steps, num_burnin, flip_prop, j, b)`. -/
structure EngineArgs where
  n : Int
  temp : ℚ
  num_steps : Int
  num_burnin : Int
  flip_prop : ℚ
  j : ℚ
  b : ℚ
deriving DecidableEq, Repr

/-- The argument tuple the driver passes to `run_ising` for temperature
`temp` (main.py line 72). -/
def mkArgs (p : Params) (temp : ℚ) : EngineArgs :=
  ⟨p.n, temp, p.num_steps, p.num_burnin, p.flip_prop, p.j, p.b⟩

/-- Oracle outcome of the `try` block of one loop iteration
(main.py lines 70-90): `run_ising` returns the two series (and the two
statistics blocks then either run cleanly, flags `statOk` / `plotOk`, or
raise), or `run_ising` raises an ordinary exception, or a
`KeyboardInterrupt` arrives. -/
inductive TempResult where
  | success : List ℚ → List ℚ → Bool → Bool → TempResult
  | failure : TempResult
  | interrupt : TempResult
deriving DecidableEq, Repr

/-- Mutable state of the sweep loop of `run_simulation`
(main.py lines 58-90): the CSV rows appended so far, the five plotting
accumulators of line 60, the recorded engine invocations, the temperatures
whose failure was logged, and whether a `KeyboardInterrupt` terminated the
process. -/
structure LoopState where
  fileRows : List (List CellVal)
  temp_arr : List ℚ
  M_mean_arr : List CellVal
  E_mean_arr : List CellVal
  M_std_arr : List CellVal
  E_std_arr : List CellVal
  engineCalls : List EngineArgs
  loggedErrors : List ℚ
  interrupted : Bool
deriving DecidableEq, Repr

/-- The loop state before the first iteration. -/
def initLoopState : LoopState := ⟨[], [], [], [], [], [], [], [], false⟩

/-- One iteration of the sweep loop (main.py lines 65-90) at position
`index` and temperature `temp`, given the oracle outcome `r`.  After a
`KeyboardInterrupt` the process has exited, so the state is frozen. -/
def processTemp (p : Params) (st : LoopState) (index : Nat) (temp : ℚ)
    (r : TempResult) : LoopState :=
  if st.interrupted then st
  else
    match r with
    | TempResult.interrupt =>
        { st with engineCalls := st.engineCalls ++ [mkArgs p temp],
                  interrupted := true }
    | TempResult.failure =>
        { st with engineCalls := st.engineCalls ++ [mkArgs p temp],
                  loggedErrors := st.loggedErrors ++ [temp] }
    | TempResult.success Msamp Esamp statOk plotOk =>
        let st1 := { st with engineCalls := st.engineCalls ++ [mkArgs p temp] }
        match calculate_and_save_values statOk index temp Msamp Esamp p.num_analysis with
        | none => { st1 with loggedErrors := st1.loggedErrors ++ [temp] }
        | some rows =>
            let st2 := { st1 with fileRows := st1.fileRows ++ rows }
            if p.plots then
              match get_plot_values plotOk temp Msamp Esamp p.num_analysis with
              | some (mM, eM, mS, eS) =>
                  { st2 with temp_arr := st2.temp_arr ++ [temp],
                             M_mean_arr := st2.M_mean_arr ++ [mM],
                             E_mean_arr := st2.E_mean_arr ++ [eM],
                             M_std_arr := st2.M_std_arr ++ [mS],
                             E_std_arr := st2.E_std_arr ++ [eS] }
              | none => { st2 with loggedErrors := st2.loggedErrors ++ [temp] }
            else st2

/-- The sweep loop from a given enumeration index. -/
def loopAux (p : Params) (res : Nat → ℚ → TempResult) :
    Nat → List ℚ → LoopState → LoopState
  | _, [], st => st
  | i, t :: ts, st => loopAux p res (i + 1) ts (processTemp p st i t (res i t))

/-- The full sweep loop `for index, temp in enumerate(temp_range)`
(main.py line 65). -/
def runLoop (p : Params) (res : Nat → ℚ → TempResult) (T : List ℚ) :
    LoopState :=
  loopAux p res 0 T initLoopState

/-- One rendered errorbar plot: `plt.errorbar(x, y, yerr=yerr)` plus the
axis labels. -/
structure ErrorbarPlot where
  x : List ℚ
  y : List CellVal
  yerr : List CellVal
  xlabel : String
  ylabel : String
deriving DecidableEq, Repr

/-- Embedding of `plot_graphs` (main.py lines 108-117), with its parameters
in the order of its `def` line:
`plot_graphs(temp_arr, M_mean_arr, M_std_arr, E_mean_arr, E_std_arr)`. -/
def plot_graphs (temp_arr : List ℚ) (M_mean_arr M_std_arr E_mean_arr E_std_arr : List CellVal) :
    ErrorbarPlot × ErrorbarPlot :=
  (⟨temp_arr, M_mean_arr, M_std_arr, "Temperature", "Magnetization"⟩,
   ⟨temp_arr, E_mean_arr, E_std_arr, "Temperature", "Energy"⟩)

/-- Result of one `run_simulation` process: the uncaught `ValueError` if
one was raised, whether the parameter header file was written
(`write_sim_parameters`, main.py line 56), the final loop state, and the
plots shown at line 95 (none when plotting is off or the process was
terminated by a `KeyboardInterrupt`). -/
structure SimResult where
  error : Option String
  paramsWritten : Bool
  state : LoopState
  plotsShown : Option (ErrorbarPlot × ErrorbarPlot)
deriving DecidableEq, Repr

/-- Embedding of `run_simulation` (main.py lines 48-95): validate the step
counts, build the temperature array, write the parameter file, run the
sweep loop, and finally call
`plot_graphs(temp_arr, M_mean_arr, E_mean_arr, M_std_arr, E_std_arr)`
(main.py line 95) — positionally, exactly as written there — when plotting
is on and the loop was not interrupted. -/
def run_simulation (p : Params) (res : Nat → ℚ → TempResult) : SimResult :=
  match check_step_values p.num_steps p.num_analysis p.num_burnin with
  | Except.error e => ⟨some e, false, initLoopState, none⟩
  | Except.ok _ =>
      match get_temp_array p.t_min p.t_max p.t_step with
      | Except.error e => ⟨some e, false, initLoopState, none⟩
      | Except.ok T =>
          let st := runLoop p res T
          if st.interrupted then ⟨none, true, st, none⟩
          else
            ⟨none, true, st,
             if p.plots then
               some (plot_graphs st.temp_arr st.M_mean_arr st.E_mean_arr
                       st.M_std_arr st.E_std_arr)
             else none⟩

/-- Whether the iteration outcome `r` makes the driver log a
per-temperature error while continuing the sweep: an exception from the
engine call (main.py line 90) or from the statistics calculation
(main.py line 27). -/
def rLogsError (r : TempResult) : Bool :=
  match r with
  | TempResult.failure => true
  | TempResult.success _ _ statOk _ => !statOk
  | TempResult.interrupt => false

/-- Modelled from the spec: the engine source file `ising.py` (imported at
main.py line 10) is not part of the repository snapshot, so its local
energy primitive is taken from the spec, which defines
`flipEnergyDelta(spin, neighborSum, J, B) = 2 * spin * (J * neighborSum + B)`. -/
def flipEnergyDelta {α : Type} [CommRing α] (spin neighborSum J B : α) : α :=
  2 * spin * (J * neighborSum + B)

/-- All five plotting accumulators have the same length. -/
def equalLens (st : LoopState) : Prop :=
  st.temp_arr.length = st.M_mean_arr.length ∧
  st.temp_arr.length = st.E_mean_arr.length ∧
  st.temp_arr.length = st.M_std_arr.length ∧
  st.temp_arr.length = st.E_std_arr.length

/-- No plotting accumulator changed between the two states. -/
def arraysUnchanged (st st' : LoopState) : Prop :=
  st'.temp_arr = st.temp_arr ∧ st'.M_mean_arr = st.M_mean_arr ∧
  st'.E_mean_arr = st.E_mean_arr ∧ st'.M_std_arr = st.M_std_arr ∧
  st'.E_std_arr = st.E_std_arr

/-- Each of the five plotting accumulators was extended by exactly one
entry, the temperature accumulator by `t`. -/
def arraysExtendedTogether (st st' : LoopState) (t : ℚ) : Prop :=
  ∃ a b c d, st'.temp_arr = st.temp_arr ++ [t] ∧
    st'.M_mean_arr = st.M_mean_arr ++ [a] ∧
    st'.E_mean_arr = st.E_mean_arr ++ [b] ∧
    st'.M_std_arr = st.M_std_arr ++ [c] ∧
    st'.E_std_arr = st.E_std_arr ++ [d]

/-- Oracle under which `run_ising` raises an ordinary exception at every
temperature. -/
def noResult : Nat → ℚ → TempResult := fun _ _ => TempResult.failure

/-- Oracle under which a `KeyboardInterrupt` arrives at every
temperature. -/
def interruptResult : Nat → ℚ → TempResult := fun _ _ => TempResult.interrupt

/-- Oracle under which every temperature succeeds with the series
`[1, 2]` and `[3, 4]` and neither statistics block raises. -/
def resC2 : Nat → ℚ → TempResult :=
  fun _ _ => TempResult.success [1, 2] [3, 4] true true

/-- A parameter set with valid step counts. -/
def pValid : Params := ⟨2, 26/10, 1/10, 4, 10, 5, 0, 1, 0, 1/10, true⟩

/-- A parameter set whose burn-in count (5) exceeds its total step
count (3). -/
def pInvalidSteps : Params := ⟨2, 26/10, 1/10, 4, 3, 1, 5, 1, 0, 1/10, true⟩

/-- A parameter set with valid step counts but `t_min = 2 > 1 = t_max`. -/
def pC10 : Params := ⟨2, 1, 1/10, 4, 10, 5, 0, 1, 0, 1/10, true⟩

/-- A parameter set sweeping the single temperature 2 with two steps, both
analysed. -/
def pC2 : Params := ⟨2, 21/10, 1, 2, 2, 2, 0, 1, 0, 1/10, true⟩

lemma processTemp_stuck (p : Params) (st : LoopState) (i : Nat) (t : ℚ)
    (r : TempResult) (h : st.interrupted = true) :
    processTemp p st i t r = st := by
  simp [processTemp, h]

lemma processTemp_not_interrupt (p : Params) (st : LoopState) (i : Nat) (t : ℚ)
    (r : TempResult) (h : st.interrupted = false) (hr : r ≠ TempResult.interrupt) :
    (processTemp p st i t r).interrupted = false ∧
    (processTemp p st i t r).engineCalls = st.engineCalls ++ [mkArgs p t] := by
  cases r with
  | interrupt => exact absurd rfl hr
  | failure => simp [processTemp, h]
  | success M E sOk pOk =>
      cases sOk with
      | false => simp [processTemp, h, calculate_and_save_values]
      | true =>
          cases hp : p.plots with
          | false => simp [processTemp, h, calculate_and_save_values, hp]
          | true =>
              cases pOk with
              | false =>
                  simp [processTemp, h, calculate_and_save_values, get_plot_values, hp]
              | true =>
                  simp [processTemp, h, calculate_and_save_values, get_plot_values, hp]

lemma processTemp_interrupt_eq (p : Params) (st : LoopState) (i : Nat) (t : ℚ)
    (h : st.interrupted = false) :
    processTemp p st i t TempResult.interrupt =
      { st with engineCalls := st.engineCalls ++ [mkArgs p t],
                interrupted := true } := by
  simp [processTemp, h]

lemma processTemp_logs (p : Params) (st : LoopState) (i : Nat) (t : ℚ)
    (r : TempResult) (h : st.interrupted = false) (hr : rLogsError r = true) :
    (processTemp p st i t r).loggedErrors = st.loggedErrors ++ [t] := by
  cases r with
  | interrupt => simp [rLogsError] at hr
  | failure => simp [processTemp, h]
  | success M E sOk pOk =>
      cases sOk with
      | false => simp [processTemp, h, calculate_and_save_values]
      | true => simp [rLogsError] at hr

lemma processTemp_logged_exists (p : Params) (st : LoopState) (i : Nat) (t : ℚ)
    (r : TempResult) :
    ∃ l, (processTemp p st i t r).loggedErrors = st.loggedErrors ++ l := by
  cases hI : st.interrupted with
  | true => exact ⟨[], by simp [processTemp, hI]⟩
  | false =>
      cases r with
      | interrupt => exact ⟨[], by simp [processTemp, hI]⟩
      | failure => exact ⟨[t], by simp [processTemp, hI]⟩
      | success M E sOk pOk =>
          cases sOk with
          | false => exact ⟨[t], by simp [processTemp, hI, calculate_and_save_values]⟩
          | true =>
              cases hp : p.plots with
              | false =>
                  exact ⟨[], by simp [processTemp, hI, calculate_and_save_values, hp]⟩
              | true =>
                  cases pOk with
                  | false =>
                      exact ⟨[t], by
                        simp [processTemp, hI, calculate_and_save_values,
                          get_plot_values, hp]⟩
                  | true =>
                      exact ⟨[], by
                        simp [processTemp, hI, calculate_and_save_values,
                          get_plot_values, hp]⟩

lemma loopAux_nil (p : Params) (res : Nat → ℚ → TempResult) (i : Nat)
    (st : LoopState) : loopAux p res i [] st = st := rfl

lemma loopAux_cons (p : Params) (res : Nat → ℚ → TempResult) (i : Nat)
    (t : ℚ) (ts : List ℚ) (st : LoopState) :
    loopAux p res i (t :: ts) st =
      loopAux p res (i + 1) ts (processTemp p st i t (res i t)) := rfl

lemma loopAux_stuck (p : Params) (res : Nat → ℚ → TempResult) :
    ∀ (ts : List ℚ) (i : Nat) (st : LoopState), st.interrupted = true →
      loopAux p res i ts st = st := by
  intro ts
  induction ts with
  | nil => intro i st _; rfl
  | cons t ts ih =>
      intro i st h
      rw [loopAux_cons, processTemp_stuck p st i t (res i t) h, ih (i + 1) st h]

lemma loopAux_no_interrupt (p : Params) (res : Nat → ℚ → TempResult)
    (h : ∀ i t, res i t ≠ TempResult.interrupt) :
    ∀ (ts : List ℚ) (i : Nat) (st : LoopState), st.interrupted = false →
      (loopAux p res i ts st).interrupted = false ∧
      (loopAux p res i ts st).engineCalls = st.engineCalls ++ ts.map (mkArgs p) := by
  intro ts
  induction ts with
  | nil => intro i st hst; exact ⟨hst, by simp [loopAux_nil]⟩
  | cons t ts ih =>
      intro i st hst
      obtain ⟨h1, h2⟩ := processTemp_not_interrupt p st i t (res i t) hst (h i t)
      obtain ⟨h3, h4⟩ := ih (i + 1) (processTemp p st i t (res i t)) h1
      refine ⟨by rw [loopAux_cons]; exact h3, ?_⟩
      rw [loopAux_cons, h4, h2, List.map_cons, List.append_assoc,
        List.singleton_append]

lemma loopAux_logged_exists (p : Params) (res : Nat → ℚ → TempResult) :
    ∀ (ts : List ℚ) (i : Nat) (st : LoopState),
      ∃ l, (loopAux p res i ts st).loggedErrors = st.loggedErrors ++ l := by
  intro ts
  induction ts with
  | nil => intro i st; exact ⟨[], by simp [loopAux]⟩
  | cons t ts ih =>
      intro i st
      obtain ⟨l1, h1⟩ := processTemp_logged_exists p st i t (res i t)
      obtain ⟨l2, h2⟩ := ih (i + 1) (processTemp p st i t (res i t))
      exact ⟨l1 ++ l2, by rw [loopAux_cons, h2, h1, List.append_assoc]⟩

lemma loopAux_logs_at (p : Params) (res : Nat → ℚ → TempResult)
    (h : ∀ i t, res i t ≠ TempResult.interrupt) :
    ∀ (ts : List ℚ) (k i : Nat) (st : LoopState) (hk : k < ts.length),
      st.interrupted = false →
      rLogsError (res (i + k) (ts.get ⟨k, hk⟩)) = true →
      ts.get ⟨k, hk⟩ ∈ (loopAux p res i ts st).loggedErrors := by
  intro ts
  induction ts with
  | nil => intro k i st hk; exact absurd hk (Nat.not_lt_zero k)
  | cons t ts ih =>
      intro k i st hk hst hlog
      cases k with
      | zero =>
          have hget : (t :: ts).get ⟨0, hk⟩ = t := rfl
          rw [hget] at hlog ⊢
          rw [loopAux_cons]
          obtain ⟨l, hl⟩ :=
            loopAux_logged_exists p res ts (i + 1) (processTemp p st i t (res i t))
          rw [hl, processTemp_logs p st i t (res i t) hst (by simpa using hlog)]
          simp
      | succ k =>
          have hget : (t :: ts).get ⟨k + 1, hk⟩ = ts.get ⟨k, Nat.lt_of_succ_lt_succ hk⟩ := rfl
          rw [hget] at hlog ⊢
          rw [loopAux_cons]
          have h1 : (processTemp p st i t (res i t)).interrupted = false :=
            (processTemp_not_interrupt p st i t (res i t) hst (h i t)).1
          have harith : i + 1 + k = i + (k + 1) := by omega
          exact ih k (i + 1) (processTemp p st i t (res i t))
            (Nat.lt_of_succ_lt_succ hk) h1 (by rw [harith]; exact hlog)

lemma loopAux_first_interrupt (p : Params) (res : Nat → ℚ → TempResult) :
    ∀ (ts : List ℚ) (k i : Nat) (st : LoopState) (hk : k < ts.length),
      st.interrupted = false →
      res (i + k) (ts.get ⟨k, hk⟩) = TempResult.interrupt →
      (∀ m (hm : m < k), res (i + m) (ts.get ⟨m, Nat.lt_trans hm hk⟩) ≠ TempResult.interrupt) →
      (loopAux p res i ts st).interrupted = true ∧
      (loopAux p res i ts st).engineCalls.length = st.engineCalls.length + (k + 1) := by
  intro ts
  induction ts with
  | nil => intro k i st hk; exact absurd hk (Nat.not_lt_zero k)
  | cons t ts ih =>
      intro k i st hk hst hint hbefore
      cases k with
      | zero =>
          have hget : (t :: ts).get ⟨0, hk⟩ = t := rfl
          rw [hget, Nat.add_zero] at hint
          rw [loopAux_cons, hint, processTemp_interrupt_eq p st i t hst,
            loopAux_stuck p res ts (i + 1) _ rfl]
          simp
      | succ k =>
          have hget : (t :: ts).get ⟨k + 1, hk⟩ = ts.get ⟨k, Nat.lt_of_succ_lt_succ hk⟩ := rfl
          rw [hget] at hint
          have hhead : res i t ≠ TempResult.interrupt := by
            have := hbefore 0 (Nat.succ_pos k)
            simpa using this
          obtain ⟨h1, h2⟩ := processTemp_not_interrupt p st i t (res i t) hst hhead
          have harith : i + 1 + k = i + (k + 1) := by omega
          obtain ⟨h3, h4⟩ := ih k (i + 1) (processTemp p st i t (res i t))
            (Nat.lt_of_succ_lt_succ hk) h1 (by rw [harith]; exact hint)
            (by
              intro m hm
              have harith2 : i + 1 + m = i + (m + 1) := by omega
              have := hbefore (m + 1) (Nat.succ_lt_succ hm)
              rw [harith2]
              simpa using this)
          refine ⟨by rw [loopAux_cons]; exact h3, ?_⟩
          rw [loopAux_cons, h4, h2]
          simp
          omega

lemma np_arange_length_iff (lo hi step : ℚ) (hstep : 0 < step) (k : Nat) :
    k < (np_arange lo hi step).length ↔ lo + (k : ℚ) * step < hi := by
  unfold np_arange
  rw [List.length_map, List.length_range, Int.lt_toNat, Int.lt_ceil,
    lt_div_iff₀ hstep]
  constructor <;> intro h <;> push_cast at h ⊢ <;> linarith

lemma np_arange_get (lo hi step : ℚ) (k : Nat)
    (hk : k < (np_arange lo hi step).length) :
    (np_arange lo hi step).get ⟨k, hk⟩ = lo + (k : ℚ) * step := by
  unfold np_arange at hk ⊢
  rw [List.get_eq_getElem, List.getElem_map, List.getElem_range]

lemma analysisWindow_pos (xs : List ℚ) (na : Int) (h1 : 0 < na)
    (h2 : na ≤ (xs.length : Int)) :
    analysisWindow xs na = xs.drop (xs.length - na.toNat) ∧
    (analysisWindow xs na).length = na.toNat := by
  have hna : (na.toNat : Int) = na := Int.toNat_of_nonneg h1.le
  have hle : na.toNat ≤ xs.length := by
    rw [← hna] at h2; exact_mod_cast h2
  have hneg : ¬ (0 ≤ -na) := by omega
  have hdrop : analysisWindow xs na = xs.drop (xs.length - na.toNat) := by
    unfold analysisWindow pySliceFrom
    rw [if_neg hneg]
    congr 1
    rw [← hna]
    omega
  refine ⟨hdrop, ?_⟩
  rw [hdrop, List.length_drop]
  omega

lemma analysisWindow_zero (xs : List ℚ) : analysisWindow xs 0 = xs := by
  unfold analysisWindow pySliceFrom
  simp

lemma processTemp_arrays (p : Params) (st : LoopState) (i : Nat) (t : ℚ)
    (r : TempResult) :
    arraysUnchanged st (processTemp p st i t r) ∨
    (arraysExtendedTogether st (processTemp p st i t r) t ∧
     st.fileRows.length < (processTemp p st i t r).fileRows.length) := by
  cases hI : st.interrupted with
  | true => left; rw [processTemp_stuck p st i t r hI]; exact ⟨rfl, rfl, rfl, rfl, rfl⟩
  | false =>
      cases r with
      | interrupt => left; rw [processTemp_interrupt_eq p st i t hI]; exact ⟨rfl, rfl, rfl, rfl, rfl⟩
      | failure => left; simp [processTemp, hI, arraysUnchanged]
      | success M E sOk pOk =>
          cases sOk with
          | false => left; simp [processTemp, hI, calculate_and_save_values, arraysUnchanged]
          | true =>
              cases hp : p.plots with
              | false =>
                  left
                  simp [processTemp, hI, calculate_and_save_values, hp, arraysUnchanged]
              | true =>
                  cases pOk with
                  | false =>
                      left
                      simp [processTemp, hI, calculate_and_save_values,
                        get_plot_values, hp, arraysUnchanged]
                  | true =>
                      right
                      constructor
                      · refine ⟨np_average (analysisWindow M p.num_analysis),
                          np_average (analysisWindow E p.num_analysis),
                          np_std (analysisWindow M p.num_analysis),
                          np_std (analysisWindow E p.num_analysis), ?_, ?_, ?_, ?_, ?_⟩ <;>
                          simp [processTemp, hI, calculate_and_save_values, get_plot_values, hp]
                      · simp [processTemp, hI, calculate_and_save_values, get_plot_values, hp]

lemma processTemp_lens (p : Params) (st : LoopState) (i : Nat) (t : ℚ)
    (r : TempResult) (h : equalLens st) :
    equalLens (processTemp p st i t r) := by
  rcases processTemp_arrays p st i t r with hu | ⟨he, _⟩
  · obtain ⟨h1, h2, h3, h4, h5⟩ := hu
    exact ⟨by rw [h1, h2]; exact h.1, by rw [h1, h3]; exact h.2.1,
      by rw [h1, h4]; exact h.2.2.1, by rw [h1, h5]; exact h.2.2.2⟩
  · obtain ⟨a, b, c, d, h1, h2, h3, h4, h5⟩ := he
    obtain ⟨g1, g2, g3, g4⟩ := h
    refine ⟨?_, ?_, ?_, ?_⟩ <;> simp [h1, h2, h3, h4, h5] <;> omega

lemma loopAux_lens (p : Params) (res : Nat → ℚ → TempResult) :
    ∀ (ts : List ℚ) (i : Nat) (st : LoopState), equalLens st →
      equalLens (loopAux p res i ts st) := by
  intro ts
  induction ts with
  | nil => intro i st h; exact h
  | cons t ts ih =>
      intro i st h
      rw [loopAux_cons]
      exact ih (i + 1) _ (processTemp_lens p st i t (res i t) h)

lemma run_simulation_interrupted_no_plots (q : Params)
    (res2 : Nat → ℚ → TempResult)
    (hq : (run_simulation q res2).state.interrupted = true) :
    (run_simulation q res2).plotsShown = none := by
  unfold run_simulation at hq ⊢
  cases hc : check_step_values q.num_steps q.num_analysis q.num_burnin with
  | error e => rfl
  | ok u =>
      cases ht : get_temp_array q.t_min q.t_max q.t_step with
      | error e => rfl
      | ok T2 =>
          rw [hc, ht] at hq
          by_cases hI : (runLoop q res2 T2).interrupted = true
          · simp [hI]
          · simp [hI] at hq

lemma pC2_temp_array :
    get_temp_array pC2.t_min pC2.t_max pC2.t_step = Except.ok [2] := by
  have hceil : (⌈(((21:ℚ)/10) - 2) / 1⌉ : ℤ) = 1 := by
    rw [Int.ceil_eq_iff]
    constructor <;> norm_num
  show get_temp_array 2 (21/10) 1 = Except.ok [2]
  unfold get_temp_array np_arange
  rw [if_neg (by norm_num), if_neg (by norm_num), hceil]
  simp [List.range_succ]

/-- C1 (counterexample): at `numAnalysis = 0` the analysis window is NOT of
size 0 — Python `series[-0:]` is the whole series, so for the series
`[1, 2, 3]` the window has size 3, refuting the claim that for every valid
`numAnalysis` including 0 the window has size exactly `numAnalysis`. -/
theorem C1_window_size_zero_counterexample :
    analysisWindow [(1:ℚ), 2, 3] 0 = [1, 2, 3] ∧
    (analysisWindow [(1:ℚ), 2, 3] 0).length ≠ 0 := by decide

/-- C1 (amended): the statistics written for a successfully processed
temperature are the symbolic `np.average` / `np.std` values of the window
`series[-numAnalysis:]` of each returned series; for `0 < numAnalysis ≤`
series length that window is exactly the last `numAnalysis` entries (it has
size exactly `numAnalysis`), while for `numAnalysis = 0` the window is the
entire series. -/
theorem C1_tail_window_amended (index : Nat) (temp : ℚ)
    (Msamp Esamp : List ℚ) (na : Int) :
    calculate_and_save_values true index temp Msamp Esamp na =
      some ((if index = 0 then [header_array] else []) ++
        [[CellVal.num temp, CellVal.avg (analysisWindow Msamp na),
          CellVal.std (analysisWindow Msamp na),
          CellVal.avg (analysisWindow Esamp na),
          CellVal.std (analysisWindow Esamp na)]])
    ∧ (0 < na → na ≤ (Msamp.length : Int) →
        (analysisWindow Msamp na).length = na.toNat ∧
        analysisWindow Msamp na = Msamp.drop (Msamp.length - na.toNat))
    ∧ (0 < na → na ≤ (Esamp.length : Int) →
        (analysisWindow Esamp na).length = na.toNat ∧
        analysisWindow Esamp na = Esamp.drop (Esamp.length - na.toNat))
    ∧ (na = 0 → analysisWindow Msamp na = Msamp ∧
        analysisWindow Esamp na = Esamp) := by
  refine ⟨by simp [calculate_and_save_values, np_average, np_std], ?_, ?_, ?_⟩
  · intro h1 h2
    have h := analysisWindow_pos Msamp na h1 h2
    exact ⟨h.2, h.1⟩
  · intro h1 h2
    have h := analysisWindow_pos Esamp na h1 h2
    exact ⟨h.2, h.1⟩
  · intro h0
    subst h0
    exact ⟨analysisWindow_zero Msamp, analysisWindow_zero Esamp⟩

/-- C1 (witness): for the series `[1, 2, 3, 4]` and `numAnalysis = 2` the
window is the last two entries. -/
theorem C1_tail_window_witness :
    (analysisWindow [(1:ℚ), 2, 3, 4] 2).length = (2:Int).toNat ∧
    analysisWindow [(1:ℚ), 2, 3, 4] 2 = [3, 4] := by
  have h := (C1_tail_window_amended 1 2 [(1:ℚ), 2, 3, 4] [5, 6, 7, 8] 2).2.1
    (by decide) (by decide)
  exact ⟨h.1, by rw [h.2]; decide⟩

/-- C2 (code bug): in a sweep over the single temperature 2 whose engine
run returns the series `[1, 2]` (magnetization) and `[3, 4]` (energy), the
magnetization figure is rendered with the ENERGY MEANS as its error bars
(not the magnetization standard deviations), and the energy figure plots
the MAGNETIZATION standard deviations as its y values (not the energy
means): the call at main.py line 95 passes
`(temp, M_mean, E_mean, M_std, E_std)` positionally into
`plot_graphs(temp, M_mean, M_std, E_mean, E_std)`. -/
theorem C2_plot_errorbar_code_bug :
    (run_simulation pC2 resC2).plotsShown =
      some (⟨[2], [CellVal.avg [1, 2]], [CellVal.avg [3, 4]],
              "Temperature", "Magnetization"⟩,
            ⟨[2], [CellVal.std [1, 2]], [CellVal.std [3, 4]],
              "Temperature", "Energy"⟩)
    ∧ CellVal.avg [3, 4] ≠ CellVal.std [1, 2] := by
  constructor
  · have hc : check_step_values pC2.num_steps pC2.num_analysis pC2.num_burnin =
        Except.ok () := rfl
    unfold run_simulation
    rw [hc, pC2_temp_array]
    rfl
  · decide

/-- C3: the driver raises a validation error exactly when
`num_burnin > num_steps` or `num_analysis > num_steps - num_burnin`; when
it does, no parameter file has been written and no engine invocation has
happened; when both conditions are false, validation passes. -/
theorem C3_step_validation (p : Params) (res : Nat → ℚ → TempResult) :
    ((p.num_burnin > p.num_steps ∨
        p.num_analysis > p.num_steps - p.num_burnin) ↔
      ∃ e, check_step_values p.num_steps p.num_analysis p.num_burnin =
        Except.error e)
    ∧ ((p.num_burnin > p.num_steps ∨
        p.num_analysis > p.num_steps - p.num_burnin) →
        (run_simulation p res).error.isSome = true ∧
        (run_simulation p res).paramsWritten = false ∧
        (run_simulation p res).state.engineCalls = [])
    ∧ (¬(p.num_burnin > p.num_steps ∨
        p.num_analysis > p.num_steps - p.num_burnin) →
        check_step_values p.num_steps p.num_analysis p.num_burnin =
          Except.ok ()) := by
  by_cases h1 : p.num_burnin > p.num_steps
  · refine ⟨?_, ?_, fun hc => absurd (Or.inl h1) hc⟩
    · simp [check_step_values, h1]
    · intro _
      simp [run_simulation, check_step_values, h1, initLoopState]
  · by_cases h2 : p.num_analysis > p.num_steps - p.num_burnin
    · refine ⟨?_, ?_, fun hc => absurd (Or.inr h2) hc⟩
      · simp [check_step_values, h1, h2]
      · intro _
        simp [run_simulation, check_step_values, h1, h2, initLoopState]
    · refine ⟨?_, ?_, ?_⟩
      · simp [check_step_values, h1, h2]
      · intro h
        rcases h with h | h
        · exact absurd h h1
        · exact absurd h h2
      · intro _
        simp [check_step_values, h1, h2]

/-- C3 (witness): with `num_burnin = 5 > 3 = num_steps` the driver errors
out before writing any file. -/
theorem C3_step_validation_witness :
    (run_simulation pInvalidSteps noResult).paramsWritten = false :=
  ((C3_step_validation pInvalidSteps noResult).2.1 (Or.inl (by decide))).2.1

/-- C4: when no keyboard interrupt arrives, every temperature of the sweep
is processed — the engine is invoked for all of them even if some fail —
and every temperature whose iteration raised an ordinary exception (from
the engine call or from the statistics calculation) is logged while the
sweep continues. -/
theorem C4_failure_isolation (p : Params) (T : List ℚ)
    (res : Nat → ℚ → TempResult)
    (h : ∀ i t, res i t ≠ TempResult.interrupt) :
    (runLoop p res T).interrupted = false ∧
    (runLoop p res T).engineCalls.length = T.length ∧
    ∀ i (hi : i < T.length), rLogsError (res i (T.get ⟨i, hi⟩)) = true →
      T.get ⟨i, hi⟩ ∈ (runLoop p res T).loggedErrors := by
  have h0 := loopAux_no_interrupt p res h T 0 initLoopState rfl
  refine ⟨h0.1, ?_, ?_⟩
  · show (loopAux p res 0 T initLoopState).engineCalls.length = T.length
    rw [h0.2]
    simp [initLoopState]
  · intro i hi hlog
    exact loopAux_logs_at p res h T i 0 initLoopState hi rfl (by simpa using hlog)

/-- C4 (witness): an engine failure at the only temperature of a sweep is
logged and does not interrupt the loop. -/
theorem C4_failure_isolation_witness :
    (2:ℚ) ∈ (runLoop pValid noResult [(2:ℚ)]).loggedErrors := by
  have h := (C4_failure_isolation pValid [(2:ℚ)] noResult
    (by intro i t hh; simp [noResult] at hh)).2.2 0 (by decide) (by rfl)
  exact h

/-- C5: for every successfully processed temperature exactly one data row
is appended to the record (preceded, for the first temperature only, by
the header row), containing in order the temperature, the magnetization
mean, the magnetization standard deviation, the energy mean and the energy
standard deviation. -/
theorem C5_data_row_per_success (p : Params) (st : LoopState) (i : Nat)
    (t : ℚ) (M E : List ℚ) (pOk : Bool) (h : st.interrupted = false) :
    (processTemp p st i t (TempResult.success M E true pOk)).fileRows =
      st.fileRows ++ (if i = 0 then [header_array] else []) ++
        [[CellVal.num t, CellVal.avg (analysisWindow M p.num_analysis),
          CellVal.std (analysisWindow M p.num_analysis),
          CellVal.avg (analysisWindow E p.num_analysis),
          CellVal.std (analysisWindow E p.num_analysis)]] := by
  cases hp : p.plots with
  | false =>
      simp [processTemp, h, calculate_and_save_values, hp, np_average,
        np_std, List.append_assoc]
  | true =>
      cases pOk with
      | false =>
          simp [processTemp, h, calculate_and_save_values, get_plot_values,
            hp, np_average, np_std, List.append_assoc]
      | true =>
          simp [processTemp, h, calculate_and_save_values, get_plot_values,
            hp, np_average, np_std, List.append_assoc]

/-- C5 (witness): the concrete first temperature writes the header row and
exactly one data row in the stated order. -/
theorem C5_data_row_witness :
    (processTemp pValid initLoopState 0 2
        (TempResult.success [1, 2] [3, 4] true true)).fileRows =
      initLoopState.fileRows ++ (if 0 = 0 then [header_array] else []) ++
        [[CellVal.num 2, CellVal.avg (analysisWindow [1, 2] pValid.num_analysis),
          CellVal.std (analysisWindow [1, 2] pValid.num_analysis),
          CellVal.avg (analysisWindow [3, 4] pValid.num_analysis),
          CellVal.std (analysisWindow [3, 4] pValid.num_analysis)]] :=
  C5_data_row_per_success pValid initLoopState 0 2 [1, 2] [3, 4] true rfl

/-- C6: in an uninterrupted sweep the driver invokes the engine exactly
once per temperature, in sweep order, with the argument tuple
`(n, temp, num_steps, num_burnin, flip_prop, j, b)`. -/
theorem C6_engine_invocations (p : Params) (T : List ℚ)
    (res : Nat → ℚ → TempResult)
    (h : ∀ i t, res i t ≠ TempResult.interrupt) :
    (runLoop p res T).engineCalls =
      T.map (fun t =>
        (⟨p.n, t, p.num_steps, p.num_burnin, p.flip_prop, p.j, p.b⟩ :
          EngineArgs)) := by
  have h0 := loopAux_no_interrupt p res h T 0 initLoopState rfl
  show (loopAux p res 0 T initLoopState).engineCalls = _
  rw [h0.2]
  simp [initLoopState, mkArgs]

/-- C6 (witness): a one-temperature sweep records exactly the one engine
call with the stated argument order. -/
theorem C6_engine_invocations_witness :
    (runLoop pValid noResult [(2:ℚ)]).engineCalls =
      [(2:ℚ)].map (fun t =>
        (⟨pValid.n, t, pValid.num_steps, pValid.num_burnin,
          pValid.flip_prop, pValid.j, pValid.b⟩ : EngineArgs)) :=
  C6_engine_invocations pValid [(2:ℚ)] noResult
    (by intro i t hh; simp [noResult] at hh)

/-- C7: a keyboard interrupt first arriving at position `k` of the sweep
terminates the whole process: the loop is marked interrupted, no engine
invocation happens for any later temperature (exactly `k + 1` calls were
recorded), and an interrupted run shows no plots. -/
theorem C7_interrupt_terminates (p : Params) (T : List ℚ)
    (res : Nat → ℚ → TempResult) (k : Nat) (hk : k < T.length)
    (hint : res k (T.get ⟨k, hk⟩) = TempResult.interrupt)
    (hbefore : ∀ m (hm : m < k),
      res m (T.get ⟨m, Nat.lt_trans hm hk⟩) ≠ TempResult.interrupt) :
    (runLoop p res T).interrupted = true ∧
    (runLoop p res T).engineCalls.length = k + 1 ∧
    ∀ (q : Params) (res2 : Nat → ℚ → TempResult),
      (run_simulation q res2).state.interrupted = true →
      (run_simulation q res2).plotsShown = none := by
  have h0 := loopAux_first_interrupt p res T k 0 initLoopState hk rfl
    (by simpa using hint) (by intro m hm; simpa using hbefore m hm)
  refine ⟨h0.1, ?_, fun q res2 hq => run_simulation_interrupted_no_plots q res2 hq⟩
  have h2 := h0.2
  simp [initLoopState] at h2
  exact h2

/-- C7 (witness): an interrupt at the first of two temperatures stops the
sweep after one engine call. -/
theorem C7_interrupt_terminates_witness :
    (runLoop pValid interruptResult [(2:ℚ), 3]).interrupted = true ∧
    (runLoop pValid interruptResult [(2:ℚ), 3]).engineCalls.length = 0 + 1 := by
  have h := C7_interrupt_terminates pValid [(2:ℚ), 3] interruptResult 0
    (by decide) (by rfl) (fun m hm => absurd hm (Nat.not_lt_zero m))
  exact ⟨h.1, h.2.1⟩

/-- C8: for every spin in (-1, +1), every neighbor sum, and all coupling
and field values in any commutative ring (in particular over the reals),
the flip energy delta is antisymmetric under negating the spin:
flipEnergyDelta(s, ns, J, B) = -flipEnergyDelta(-s, ns, J, B). -/
theorem C8_flip_energy_symmetry {α : Type} [CommRing α] (s ns J B : α)
    (h : s = 1 ∨ s = -1) :
    flipEnergyDelta s ns J B = - flipEnergyDelta (-s) ns J B := by
  unfold flipEnergyDelta
  ring

/-- C8 (witness): the symmetry at the concrete rational input
s = 1, ns = 2, J = 3, B = 4. -/
theorem C8_flip_energy_symmetry_witness :
    ((1:ℚ) = 1 ∨ (1:ℚ) = -1) ∧
    flipEnergyDelta (1:ℚ) 2 3 4 = - flipEnergyDelta (-(1:ℚ)) 2 3 4 :=
  ⟨Or.inl rfl, C8_flip_energy_symmetry (1:ℚ) 2 3 4 (Or.inl rfl)⟩

/-- C9: each loop iteration either leaves all five plotting accumulators
unchanged or extends all five together by one entry, the latter only when
new rows were also written to the record; consequently all five arrays
have equal length at every point of the sweep. -/
theorem C9_accumulator_invariant (p : Params) :
    (∀ (st : LoopState) (i : Nat) (t : ℚ) (r : TempResult),
        arraysUnchanged st (processTemp p st i t r) ∨
        (arraysExtendedTogether st (processTemp p st i t r) t ∧
         st.fileRows.length < (processTemp p st i t r).fileRows.length))
    ∧ (∀ (st : LoopState) (i : Nat) (t : ℚ) (r : TempResult),
        equalLens st → equalLens (processTemp p st i t r))
    ∧ (∀ (res : Nat → ℚ → TempResult) (T : List ℚ),
        equalLens (runLoop p res T)) := by
  refine ⟨processTemp_arrays p, processTemp_lens p, ?_⟩
  intro res T
  exact loopAux_lens p res T 0 initLoopState ⟨rfl, rfl, rfl, rfl⟩

/-- C9 (witness): a failed iteration preserves the equal-length invariant
from the initial state. -/
theorem C9_accumulator_invariant_witness :
    equalLens (processTemp pValid initLoopState 0 2 TempResult.failure) :=
  (C9_accumulator_invariant pValid).2.1 initLoopState 0 2 TempResult.failure
    ⟨rfl, rfl, rfl, rfl⟩

/-- C10 (counterexample): with `t_min = 2 > 1 = t_max` and valid step
counts, the driver does raise an error, but BEFORE the parameter file is
written — refuting the claim that the error is raised after
parameter-file writing. -/
theorem C10_order_counterexample :
    (run_simulation pC10 noResult).error.isSome = true ∧
    (run_simulation pC10 noResult).paramsWritten = false := by decide

/-- C10 (amended): if `t_min > t_max` (with step validation passing) the
driver raises the temperature-array ValueError BEFORE parameter-file
writing and before any engine invocation; otherwise, for a positive step,
the temperature array consists of exactly the values
`t_min + k * t_step` that are strictly below `t_max`. -/
theorem C10_temp_array_amended (p : Params) (res : Nat → ℚ → TempResult) :
    (p.t_min > p.t_max →
      check_step_values p.num_steps p.num_analysis p.num_burnin =
        Except.ok () →
      (run_simulation p res).error =
          some "T_min cannot be greater than T_max. Exiting Simulation" ∧
      (run_simulation p res).paramsWritten = false ∧
      (run_simulation p res).state.engineCalls = [])
    ∧ (¬ p.t_min > p.t_max → 0 < p.t_step →
      ∃ T, get_temp_array p.t_min p.t_max p.t_step = Except.ok T ∧
        (∀ k (hk : k < T.length),
          T.get ⟨k, hk⟩ = p.t_min + (k : ℚ) * p.t_step) ∧
        (∀ k : Nat, k < T.length ↔
          p.t_min + (k : ℚ) * p.t_step < p.t_max)) := by
  constructor
  · intro hmm hc
    have hg : get_temp_array p.t_min p.t_max p.t_step =
        Except.error "T_min cannot be greater than T_max. Exiting Simulation" := by
      unfold get_temp_array
      rw [if_pos hmm]
    simp [run_simulation, hc, hg, initLoopState]
  · intro hmm hstep
    have hne : ¬ p.t_step = 0 := ne_of_gt hstep
    refine ⟨np_arange p.t_min p.t_max p.t_step, ?_, ?_, ?_⟩
    · unfold get_temp_array
      rw [if_neg hmm, if_neg hne]
    · intro k hk
      exact np_arange_get p.t_min p.t_max p.t_step k hk
    · intro k
      exact np_arange_length_iff p.t_min p.t_max p.t_step hstep k

/-- C10 (witness): at the concrete inverted range the error precedes any
file writing or engine call. -/
theorem C10_temp_array_witness :
    (run_simulation pC10 noResult).paramsWritten = false ∧
    (run_simulation pC10 noResult).state.engineCalls = [] := by
  have h := (C10_temp_array_amended pC10 noResult).1 (by decide) (by rfl)
  exact ⟨h.2.1, h.2.2⟩
